import Mathlib

/-!
Verification of the opencode-offline dependency-acquisition and
bundle-assembly pipeline.

The development shallowly embeds the four source files:
* `script/download-offline-deps.ts`  (namespace `OfflineDeps`)
* `script/package-offline-bundle.ts` (namespace `OfflinePkg`)
* `packages/opencode/src/offline/index.ts` (namespace `Offline`)
* `packages/opencode/src/session/request-capture.ts` (namespace `RequestCapture`)

Effectful TypeScript is modeled by explicit state passing: the outcomes of
network requests and subprocesses are inputs (an environment record), the
filesystem effects are an explicit state record, and a function that can
throw returns `Except`, the error carrying the thrown message together with
the filesystem state at the point of failure.
-/

/-- Test whether the character list `pat` occurs at the start of `s`;
the anchored comparison underlying a substring search. -/
def startsWithChars : List Char → List Char → Bool
  | [], _ => true
  | _ :: _, [] => false
  | p :: ps, c :: cs => p == c && startsWithChars ps cs

/-- Occurrence of `pat` anywhere in `s`, over character lists. -/
def containsChars : List Char → List Char → Bool
  | [], pat => pat.isEmpty
  | c :: rest, pat => startsWithChars pat (c :: rest) || containsChars rest pat

/-- Model of the JavaScript `String.prototype.includes` substring test. -/
def strIncludes (s pat : String) : Bool :=
  containsChars s.data pat.data

/-- Model of the JavaScript `String.prototype.endsWith` test. -/
def strEndsWith (s pat : String) : Bool :=
  startsWithChars pat.data.reverse s.data.reverse

/-- Model of the JavaScript `String.prototype.toLowerCase` on the ASCII
header names used here. -/
def strToLower (s : String) : String :=
  String.mk (s.data.map Char.toLower)

/-- Helper for `splitLines`: accumulates the current line in reverse. -/
def splitLinesAux : List Char → List Char → List String
  | [], acc => [String.mk acc.reverse]
  | c :: rest, acc =>
    if c = '\n' then String.mk acc.reverse :: splitLinesAux rest []
    else splitLinesAux rest (c :: acc)

/-- Split a string at newline characters (the `split("\n")` view of a
generated script). -/
def splitLines (s : String) : List String := splitLinesAux s.data []

/-- Helper for `splitOnChar`: accumulates the current segment in reverse. -/
def splitOnCharAux (sep : Char) : List Char → List Char → List String
  | [], acc => [String.mk acc.reverse]
  | c :: rest, acc =>
    if c = sep then String.mk acc.reverse :: splitOnCharAux sep rest []
    else splitOnCharAux sep rest (c :: acc)

/-- Split a string at every occurrence of a separator character. -/
def splitOnChar (sep : Char) (s : String) : List String :=
  splitOnCharAux sep s.data []

namespace OfflineDeps

/-- Constant `DEPS_DIR` from `download-offline-deps.ts`. -/
def DEPS_DIR : String := "dist/offline-deps"

/-- Constant `RIPGREP_VERSION` from `download-offline-deps.ts`. -/
def RIPGREP_VERSION : String := "14.1.1"

/-- One release asset as returned by the GitHub releases API. -/
structure Asset where
  name : String
  browser_download_url : String
deriving DecidableEq

/-- Body of a successful `releases/latest` API response. -/
structure GithubRelease where
  tag_name : String
  assets : List Asset
deriving DecidableEq

/-- Observable outcome of an HTTP `fetch`. -/
structure HttpResponse where
  ok : Bool
  status : Nat
  statusText : String
  body : List Nat
deriving DecidableEq

/-- Observable outcome of a spawned subprocess: its exit code and the
text captured from its standard error stream. -/
structure ProcResult where
  exitCode : Int
  stderr : String
deriving DecidableEq

/-- A file written to disk (destination path and byte content). -/
structure FileWrite where
  dest : String
  content : List Nat
deriving DecidableEq

/-- Embedding of `downloadFile(url, dest)`: on a non-ok response it throws
an error carrying the status and status text; otherwise it writes the
response body to `dest`. -/
def downloadFile (url dest : String) (response : HttpResponse) :
    Except String FileWrite :=
  if !response.ok then
    .error ("Failed to download " ++ url ++ ": " ++ toString response.status
      ++ " " ++ response.statusText)
  else
    .ok { dest := dest, content := response.body }

/-- Embedding of `extractTarGz(archivePath, destDir, stripComponents)`:
throws when the `tar` subprocess exits non-zero; the message names only the
archive (the captured stderr is not included by the source). -/
def extractTarGz (archivePath : String) (_destDir : String)
    (_stripComponents : Nat) (proc : ProcResult) : Except String Unit :=
  if proc.exitCode != 0 then
    .error ("Failed to extract " ++ archivePath)
  else
    .ok ()

/-- Embedding of `extractZip(archivePath, destDir)`: throws when the
`unzip` subprocess exits non-zero, with the captured stderr appended to
the message. -/
def extractZip (archivePath : String) (_destDir : String)
    (proc : ProcResult) : Except String Unit :=
  if proc.exitCode != 0 then
    .error ("Failed to extract " ++ archivePath ++ ": " ++ proc.stderr)
  else
    .ok ()

/-- Predicate used by `downloadClangd` to pick the Linux asset:
name contains "linux", contains the release tag, and ends with ".zip". -/
def clangdAssetMatch (tag : String) (a : Asset) : Bool :=
  strIncludes a.name "linux" && strIncludes a.name tag && strEndsWith a.name ".zip"

/-- Embedding of `release.assets.find(...)` in `downloadClangd`. -/
def findClangdAsset (tag : String) (assets : List Asset) : Option Asset :=
  assets.find? (clangdAssetMatch tag)

/-- Fixed asset name used by `downloadRustAnalyzer`. -/
def rustAnalyzerAssetName : String := "rust-analyzer-x86_64-unknown-linux-gnu.gz"

/-- Embedding of `release.assets.find(a => a.name === "rust-analyzer-...gz")`. -/
def findRustAnalyzerAsset (assets : List Asset) : Option Asset :=
  assets.find? (fun a => a.name == rustAnalyzerAssetName)

/-- Manifest record written by `createManifest` (interface `Manifest`).
The `npmPackages` object is modeled as an association list preserving
key order. -/
structure Components where
  ripgrep : String
  clangd : String
  rustAnalyzer : String
  npmPackages : List (String × String)
deriving DecidableEq

/-- Top-level manifest fields. -/
structure Manifest where
  version : String
  created : String
  platform : String
  arch : String
  components : Components
deriving DecidableEq

/-- Embedding of `createManifest`: a pure record of the four acquisition
results plus the fixed schema fields and the creation timestamp. -/
def createManifest (ripgrepVersion clangdVersion rustAnalyzerVersion : String)
    (npmVersions : List (String × String)) (now : String) : Manifest :=
  { version := "1.0.0"
    created := now
    platform := "linux"
    arch := "x64"
    components :=
      { ripgrep := ripgrepVersion
        clangd := clangdVersion
        rustAnalyzer := rustAnalyzerVersion
        npmPackages := npmVersions } }

/-- External-world outcomes consumed by one acquisition run: the result of
every network request and subprocess the script performs, in program order,
plus the clock reading used for the manifest timestamp. A release field of
`none` models a non-ok response from the releases API. -/
structure Env where
  ripgrepDownload : HttpResponse
  ripgrepTar : ProcResult
  clangdRelease : Option GithubRelease
  clangdDownload : HttpResponse
  clangdUnzip : ProcResult
  rustAnalyzerRelease : Option GithubRelease
  rustAnalyzerDownload : HttpResponse
  rustAnalyzerGunzip : ProcResult
  bunAdd : ProcResult
  installedVersions : List (String × String)
  now : String

/-- Filesystem state under the dependency root, tracking which dependency
directories have been fully materialized and whether `manifest.json`
exists (and with which content). -/
structure FS where
  ripgrepDir : Bool
  clangdDir : Bool
  rustAnalyzerBin : Bool
  nodeModules : Bool
  manifest : Option Manifest
deriving DecidableEq

/-- Fresh state right after `main` removes and recreates `DEPS_DIR`. -/
def FS.empty : FS :=
  { ripgrepDir := false, clangdDir := false, rustAnalyzerBin := false
    nodeModules := false, manifest := none }

/-- Embedding of `downloadRipgrep`: download the pinned archive, extract it
with one stripped component, mark the binary executable; returns the
hardcoded `RIPGREP_VERSION`. An error carries the state at failure. -/
def downloadRipgrep (env : Env) (fs : FS) : Except (String × FS) (FS × String) :=
  let filename := "ripgrep-" ++ RIPGREP_VERSION ++ "-x86_64-unknown-linux-musl.tar.gz"
  let url := "https://github.com/BurntSushi/ripgrep/releases/download/"
    ++ RIPGREP_VERSION ++ "/" ++ filename
  let archivePath := DEPS_DIR ++ "/" ++ filename
  match downloadFile url archivePath env.ripgrepDownload with
  | .error e => .error (e, fs)
  | .ok _ =>
    match extractTarGz archivePath (DEPS_DIR ++ "/ripgrep") 1 env.ripgrepTar with
    | .error e => .error (e, fs)
    | .ok _ => .ok ({ fs with ripgrepDir := true }, RIPGREP_VERSION)

/-- Embedding of `downloadClangd`: resolve the latest release, select the
Linux zip asset by the substring predicate, download, unzip, rename the
versioned directory to `clangd`; returns the release tag. -/
def downloadClangd (env : Env) (fs : FS) : Except (String × FS) (FS × String) :=
  match env.clangdRelease with
  | none => .error ("Failed to fetch clangd release info", fs)
  | some release =>
    let tag := release.tag_name
    match findClangdAsset tag release.assets with
    | none => .error ("Could not find clangd Linux asset", fs)
    | some asset =>
      let archivePath := DEPS_DIR ++ "/" ++ asset.name
      match downloadFile asset.browser_download_url archivePath env.clangdDownload with
      | .error e => .error (e, fs)
      | .ok _ =>
        match extractZip archivePath (DEPS_DIR ++ "/lsp") env.clangdUnzip with
        | .error e => .error (e, fs)
        | .ok _ => .ok ({ fs with clangdDir := true }, tag)

/-- Embedding of `downloadRustAnalyzer`: resolve the latest release, select
the asset by exact name, download the gzip, decompress it with `gunzip -c`,
write the binary and mark it executable; returns the release tag. -/
def downloadRustAnalyzer (env : Env) (fs : FS) : Except (String × FS) (FS × String) :=
  match env.rustAnalyzerRelease with
  | none => .error ("Failed to fetch rust-analyzer release info", fs)
  | some release =>
    let tag := release.tag_name
    match findRustAnalyzerAsset release.assets with
    | none => .error ("Could not find rust-analyzer Linux asset", fs)
    | some asset =>
      let archivePath := DEPS_DIR ++ "/rust-analyzer.gz"
      match downloadFile asset.browser_download_url archivePath env.rustAnalyzerDownload with
      | .error e => .error (e, fs)
      | .ok _ =>
        if env.rustAnalyzerGunzip.exitCode != 0 then
          .error ("Failed to extract rust-analyzer", fs)
        else
          .ok ({ fs with rustAnalyzerBin := true }, tag)

/-- Embedding of `installNpmPackages`: run the package installer and, on a
zero exit, read back the resolved `dependencies` from the written
`package.json`. -/
def installNpmPackages (env : Env) (fs : FS) :
    Except (String × FS) (FS × List (String × String)) :=
  if env.bunAdd.exitCode != 0 then
    .error ("Failed to install npm packages", fs)
  else
    .ok ({ fs with nodeModules := true }, env.installedVersions)

/-- Embedding of `main` in `download-offline-deps.ts`: wipe and recreate the
dependency root, run the four acquisitions strictly in sequence, then write
the manifest. The first failure aborts the run with the state at failure. -/
def main (env : Env) : Except (String × FS) FS :=
  match downloadRipgrep env FS.empty with
  | .error e => .error e
  | .ok (fs1, ripgrepVersion) =>
  match downloadClangd env fs1 with
  | .error e => .error e
  | .ok (fs2, clangdVersion) =>
  match downloadRustAnalyzer env fs2 with
  | .error e => .error e
  | .ok (fs3, rustAnalyzerVersion) =>
  match installNpmPackages env fs3 with
  | .error e => .error e
  | .ok (fs4, npmVersions) =>
    let m := createManifest ripgrepVersion clangdVersion rustAnalyzerVersion
      npmVersions env.now
    .ok { fs4 with manifest := some m }

end OfflineDeps

namespace OfflinePkg

/-- Constant `BUNDLE_DIR` from `package-offline-bundle.ts`. -/
def BUNDLE_DIR : String := "dist/opencode-offline-linux-x64"

/-- JSON-like values as the packaging script manipulates them after
JSON.parse: strings and objects (ordered key-value lists) suffice for the
manifest tree. -/
inductive JsValue where
  | str : String → JsValue
  | obj : List (String × JsValue) → JsValue

/-- Property read `o[k]` on a parsed JSON object. -/
def getKey (o : List (String × JsValue)) (k : String) : Option JsValue :=
  (o.find? (fun p => p.1 == k)).map (fun p => p.2)

/-- Property assignment `o[k] = v` on a parsed JSON object: overwrites an
existing entry in place, otherwise appends a new entry. -/
def setKey (o : List (String × JsValue)) (k : String) (v : JsValue) :
    List (String × JsValue) :=
  match o with
  | [] => [(k, v)]
  | (k1, v1) :: rest =>
    if k1 == k then (k, v) :: rest else (k1, v1) :: setKey rest k v

/-- Object tree of a serialized manifest: what the assembler's
JSON.parse recovers from the file `createManifest` stringified, with the
field order in which the record was constructed. -/
def manifestToJs (m : OfflineDeps.Manifest) : List (String × JsValue) :=
  [("version", .str m.version),
   ("created", .str m.created),
   ("platform", .str m.platform),
   ("arch", .str m.arch),
   ("components", .obj
     [("ripgrep", .str m.components.ripgrep),
      ("clangd", .str m.components.clangd),
      ("rustAnalyzer", .str m.components.rustAnalyzer),
      ("npmPackages", .obj (m.components.npmPackages.map
        (fun p => (p.1, JsValue.str p.2))))])]

/-- Conditional property assignment `if (x) o[k] = x` on an
environment-variable read: JavaScript truthiness, so an unset variable and
the empty string both leave the object unchanged. -/
def setIfTruthy (m : List (String × JsValue)) (k : String) :
    Option String → List (String × JsValue)
  | some s => if s == "" then m else setKey m k (.str s)
  | none => m

/-- Embedding of the manifest-injection step of `createBundle`: read back
the manifest object, set `bundleVersion` when the `BUNDLE_VERSION`
environment value is truthy and `commitSha` when `BUNDLE_COMMIT_SHA` is
truthy, then rewrite the object at the bundle root. -/
def injectBundleInfo (m : List (String × JsValue))
    (bundleVersion commitSha : Option String) : List (String × JsValue) :=
  setIfTruthy (setIfTruthy m "bundleVersion" bundleVersion) "commitSha" commitSha

/-- Content of the launcher script written by `createWrapperScript`
(the exact generated text). -/
def wrapperScript : String :=
  "#!/bin/bash\n# OpenCode Offline Wrapper Script\n# Sets up environment variables for offline mode and runs opencode\n\nSCRIPT_DIR=\"$(cd \"$(dirname \"${BASH_SOURCE[0]}\")\" && pwd)\"\n\nexport OPENCODE_OFFLINE_MODE=true\nexport OPENCODE_OFFLINE_DEPS_PATH=\"$SCRIPT_DIR/deps\"\nexport OPENCODE_DISABLE_AUTOUPDATE=true\nexport OPENCODE_DISABLE_LSP_DOWNLOAD=true\nexport OPENCODE_DISABLE_MODELS_FETCH=true\n\nexec \"$SCRIPT_DIR/bin/opencode\" \"$@\"\n"

/-- Search for the linux-x64 build directory in `buildOpencode`. -/
def linuxX64Entry (entries : List String) : Option String :=
  entries.find? (fun e => strIncludes e "linux" && strIncludes e "x64"
    && !(strIncludes e "baseline") && !(strIncludes e "musl"))

/-- Steps of the packaging pipeline, in the order `main` runs them. -/
inductive PkgStep where
  | build | bundle | wrapper | readme | tarball
deriving DecidableEq

/-- External-world outcomes consumed by one packaging run. -/
structure PkgEnv where
  depsExist : Bool
  bunInstall : OfflineDeps.ProcResult
  buildProc : OfflineDeps.ProcResult
  distEntries : List String
  manifest : OfflineDeps.Manifest
  bundleVersion : Option String
  commitSha : Option String
  tarProc : OfflineDeps.ProcResult

/-- Observable result of one packaging run: the process exit code, the
pipeline steps completed in order, the lines printed to the error stream,
and the manifest written at the bundle root (when reached). -/
structure PkgResult where
  exitCode : Int
  steps : List PkgStep
  errorOutput : List String
  bundleManifest : Option (List (String × JsValue))

/-- Embedding of `main` in `package-offline-bundle.ts`: check that the
dependency root exists (printing two messages and exiting 1 when it does
not), then build, assemble the bundle, write the wrapper and readme, and
create the tarball; any thrown error reaches the top-level catch, which
prints it and exits 1. -/
def mainPackage (env : PkgEnv) : PkgResult :=
  if !env.depsExist then
    { exitCode := 1
      steps := []
      errorOutput :=
        ["Error: Dependencies not found at " ++ OfflineDeps.DEPS_DIR,
         "Please run 'bun run script/download-offline-deps.ts' first"]
      bundleManifest := none }
  else if env.bunInstall.exitCode != 0 then
    { exitCode := 1, steps := [],
      errorOutput := ["Error: Failed to install dependencies"],
      bundleManifest := none }
  else if env.buildProc.exitCode != 0 then
    { exitCode := 1, steps := [],
      errorOutput := ["Error: Failed to build opencode"],
      bundleManifest := none }
  else
    match linuxX64Entry env.distEntries with
    | none =>
      { exitCode := 1, steps := [],
        errorOutput := ["Error: Could not find linux-x64 build output"],
        bundleManifest := none }
    | some _ =>
      let written := injectBundleInfo (manifestToJs env.manifest)
        env.bundleVersion env.commitSha
      if env.tarProc.exitCode != 0 then
        { exitCode := 1
          steps := [.build, .bundle, .wrapper, .readme]
          errorOutput := ["Error: Failed to create tarball"]
          bundleManifest := some written }
      else
        { exitCode := 0
          steps := [.build, .bundle, .wrapper, .readme, .tarball]
          errorOutput := []
          bundleManifest := some written }

end OfflinePkg

namespace Offline

/-- Modelled from the spec: the `Flag` module (`../flag/flag`) is not among
the provided sources; the spec describes the consumed environment as "an
offline-mode boolean flag" and "a filesystem path to the dependency root",
the latter possibly unset. -/
structure Flags where
  OPENCODE_OFFLINE_MODE : Bool
  OPENCODE_OFFLINE_DEPS_PATH : Option String

/-- Embedding of `Offline.isEnabled`. -/
def isEnabled (f : Flags) : Bool := f.OPENCODE_OFFLINE_MODE

/-- Embedding of `Offline.getDepsPath`. -/
def getDepsPath (f : Flags) : Option String := f.OPENCODE_OFFLINE_DEPS_PATH

/-- Core of Node's posix path normalization (`normalizeString`): fold the
path's separator-split segments left to right, skipping empty and "."
segments; on ".." pop the last plain output segment, and when there is
nothing to pop (output empty or already ending in "..") keep the ".."
only for relative paths (`allowAboveRoot`). The accumulator holds the
output segments in reverse. -/
def normalizeSegsAux (allowAboveRoot : Bool) :
    List String → List String → List String
  | acc, [] => acc.reverse
  | acc, seg :: rest =>
    if seg == "" || seg == "." then
      normalizeSegsAux allowAboveRoot acc rest
    else if seg == ".." then
      match acc with
      | [] =>
        if allowAboveRoot then normalizeSegsAux allowAboveRoot [".."] rest
        else normalizeSegsAux allowAboveRoot [] rest
      | top :: below =>
        if top == ".." then
          if allowAboveRoot then
            normalizeSegsAux allowAboveRoot (".." :: top :: below) rest
          else
            normalizeSegsAux allowAboveRoot (top :: below) rest
        else
          normalizeSegsAux allowAboveRoot below rest
    else
      normalizeSegsAux allowAboveRoot (seg :: acc) rest

/-- Join path segments with the posix separator. -/
def joinSegs : List String → String
  | [] => ""
  | [s] => s
  | s :: rest => s ++ "/" ++ joinSegs rest

/-- Whether a path string starts with the posix separator (is absolute). -/
def isAbs (p : String) : Bool :=
  match p.data with
  | [] => false
  | c :: _ => c == '/'

/-- Whether a path string ends with the posix separator. -/
def hasTrailingSep (p : String) : Bool :=
  match p.data.reverse with
  | [] => false
  | c :: _ => c == '/'

/-- Model of Node's `path.posix.normalize`: resolve "." and ".." segments
and collapse repeated separators, preserving a leading separator for
absolute paths and a trailing separator, and yielding "." (or "/") when
everything cancels. -/
def pathNormalize (p : String) : String :=
  let abs := isAbs p
  let trail := hasTrailingSep p
  let segs := normalizeSegsAux (!abs) [] (splitOnChar '/' p)
  let core := joinSegs segs
  if core == "" then
    if abs then "/" else if trail then "./" else "."
  else
    let withTrail := if trail then core ++ "/" else core
    if abs then "/" ++ withTrail else withTrail

/-- Model of Node's `path.posix.join` (the `path.join` of the target
platform): the non-empty parts joined with the separator and then
normalized; "." when every part is empty. -/
def pathJoinList (parts : List String) : String :=
  let joined := joinSegs (parts.filter (fun p => !(p == "")))
  if joined == "" then "." else pathNormalize joined

/-- Node `path.join` on the three arguments passed by `resolveBinary` and
`resolveNpmPackage`. -/
def pathJoin3 (a b c : String) : String := pathJoinList [a, b, c]

/-- Node `path.join` on the five arguments passed by `resolveLspBinary`. -/
def pathJoin5 (a b c d e : String) : String := pathJoinList [a, b, c, d, e]

/-- Embedding of `Offline.resolveBinary`: `undefined` unless offline mode
is on and the deps path is truthy (set and non-empty); otherwise the join
of the deps path, subpath and name. -/
def resolveBinary (f : Flags) (name subpath : String) : Option String :=
  match getDepsPath f with
  | none => none
  | some depsPath =>
    if !isEnabled f || depsPath == "" then none
    else some (pathJoin3 depsPath subpath name)

/-- Embedding of `Offline.resolveNpmPackage`. -/
def resolveNpmPackage (f : Flags) (pkg : String) : Option String :=
  match getDepsPath f with
  | none => none
  | some depsPath =>
    if !isEnabled f || depsPath == "" then none
    else some (pathJoin3 depsPath "node_modules" pkg)

/-- Embedding of `Offline.resolveLspBinary`. -/
def resolveLspBinary (f : Flags) (lspName binaryName : String) : Option String :=
  match getDepsPath f with
  | none => none
  | some depsPath =>
    if !isEnabled f || depsPath == "" then none
    else some (pathJoin5 depsPath "lsp" lspName "bin" binaryName)

end Offline

namespace RequestCapture

/-- Captured request record from `request-capture.ts`; the headers object
is modeled as an ordered association list (Object.entries order). -/
structure CapturedRequest where
  sessionID : String
  timestamp : Nat
  url : String
  method : String
  headers : List (String × String)
  body : String
deriving DecidableEq

/-- Character-level body of `shellEscape`: every single quote becomes
quote, backslash, quote, quote. -/
def shellEscapeChars : List Char → List Char
  | [] => []
  | c :: rest =>
    if c = '\'' then '\'' :: '\\' :: '\'' :: '\'' :: shellEscapeChars rest
    else c :: shellEscapeChars rest

/-- Embedding of `shellEscape`: the global regex replacement of single
quotes for use inside a single-quoted shell string. -/
def shellEscape (s : String) : String := String.mk (shellEscapeChars s.data)

/-- One iteration of the header loop in `toCurl`: authorization and
x-api-key headers are skipped (case-insensitively) when `includeAuth` is
false, content-length is always skipped, and any other header renders as a
quoted -H part. -/
def headerPart (includeAuth : Bool) (kv : String × String) : Option String :=
  if !includeAuth && (strToLower kv.1 == "authorization" || strToLower kv.1 == "x-api-key") then
    none
  else if strToLower kv.1 == "content-length" then
    none
  else
    some ("-H '" ++ shellEscape kv.1 ++ ": " ++ shellEscape kv.2 ++ "'")

/-- Embedding of `toCurl`: the curl invocation, method, shell-quoted URL,
surviving headers, and the body when non-empty, joined with
backslash-newline continuations. -/
def toCurl (request : CapturedRequest) (includeAuth : Bool) : String :=
  let parts := ["curl", "-X " ++ request.method,
      "'" ++ shellEscape request.url ++ "'"]
    ++ request.headers.filterMap (headerPart includeAuth)
    ++ (if request.body == "" then []
        else ["-d '" ++ shellEscape request.body ++ "'"])
  String.intercalate " \\\n  " parts

end RequestCapture

namespace OfflineDeps

/-- Sample successful HTTP response, for concrete evaluations. -/
def okResponse : HttpResponse :=
  { ok := true, status := 200, statusText := "OK", body := [0] }

/-- Sample failed HTTP response. -/
def errResponse : HttpResponse :=
  { ok := false, status := 404, statusText := "Not Found", body := [] }

/-- Sample zero-exit subprocess outcome. -/
def okProc : ProcResult := { exitCode := 0, stderr := "" }

/-- Sample failing subprocess outcome with diagnostic output. -/
def failProc : ProcResult := { exitCode := 2, stderr := "unzip: bad archive" }

/-- Sample clangd release with one matching Linux asset. -/
def clangdReleaseW : GithubRelease :=
  { tag_name := "19.1.2"
    assets := [{ name := "clangd-linux-19.1.2.zip", browser_download_url := "u1" }] }

/-- Sample rust-analyzer release with the fixed-name asset. -/
def raReleaseW : GithubRelease :=
  { tag_name := "2025-09-29"
    assets := [{ name := "rust-analyzer-x86_64-unknown-linux-gnu.gz",
                 browser_download_url := "u2" }] }

/-- Environment in which every acquisition step succeeds. -/
def envAllOk : Env :=
  { ripgrepDownload := okResponse, ripgrepTar := okProc
    clangdRelease := some clangdReleaseW, clangdDownload := okResponse
    clangdUnzip := okProc
    rustAnalyzerRelease := some raReleaseW, rustAnalyzerDownload := okResponse
    rustAnalyzerGunzip := okProc, bunAdd := okProc
    installedVersions := [("pyright", "1.1.405")]
    now := "2026-02-03T04:05:06.000Z" }

/-- Environment in which the npm installation step fails. -/
def envNpmFail : Env := { envAllOk with bunAdd := failProc }

/-- State reached by a fully successful acquisition run in `envAllOk`. -/
def fsAllOk : FS :=
  { ripgrepDir := true, clangdDir := true, rustAnalyzerBin := true
    nodeModules := true
    manifest := some (createManifest "14.1.1" "19.1.2" "2025-09-29"
      [("pyright", "1.1.405")] "2026-02-03T04:05:06.000Z") }

/-- Manifest of a run observed at clock reading "A". -/
def mA : Manifest :=
  createManifest "14.1.1" "19.1.2" "2025-09-29" [("pyright", "1.1.405")] "A"

/-- Manifest of a run observed at clock reading "B". -/
def mB : Manifest :=
  createManifest "14.1.1" "19.1.2" "2025-09-29" [("pyright", "1.1.405")] "B"

/-- Final state of the run at clock reading "A". -/
def fsA : FS := { fsAllOk with manifest := some mA }

/-- Final state of the run at clock reading "B". -/
def fsB : FS := { fsAllOk with manifest := some mB }

end OfflineDeps


namespace OfflinePkg

/-- Sample packaging environment whose dependency root is missing. -/
def pkgEnvNoDeps : PkgEnv :=
  { depsExist := false
    bunInstall := OfflineDeps.okProc
    buildProc := OfflineDeps.okProc
    distEntries := ["opencode-linux-x64"]
    manifest := OfflineDeps.mA
    bundleVersion := none
    commitSha := none
    tarProc := OfflineDeps.okProc }

end OfflinePkg

namespace Offline

/-- Sample flags with offline mode on and a set, non-empty deps path. -/
def flagsW : Flags :=
  { OPENCODE_OFFLINE_MODE := true, OPENCODE_OFFLINE_DEPS_PATH := some "deps" }

end Offline

namespace RequestCapture

/-- Test used by `toCurl` for a header name that carries an auth token
(case-insensitive authorization or x-api-key). -/
def authHeaderKey (k : String) : Bool :=
  strToLower k == "authorization" || strToLower k == "x-api-key"

/-- Removal of every content-length header from a header list. -/
def stripContentLength (headers : List (String × String)) :
    List (String × String) :=
  headers.filter (fun kv => !(strToLower kv.1 == "content-length"))

/-- Sample captured request with an authorization header. -/
def reqA : CapturedRequest :=
  { sessionID := "s1", timestamp := 1
    url := "https://api.example.com/v1/messages", method := "POST"
    headers := [("Authorization", "Bearer secret-one"),
                ("content-type", "application/json")]
    body := "hello" }

/-- Same request as `reqA` except for the authorization header value. -/
def reqB : CapturedRequest :=
  { reqA with headers := [("Authorization", "Bearer secret-two"),
                          ("content-type", "application/json")] }

end RequestCapture

section StringLemmas

theorem startsWithChars_append (p t : List Char) :
    startsWithChars p (p ++ t) = true := by
  induction p with
  | nil => rfl
  | cons c cs ih => simp [startsWithChars, ih]

theorem containsChars_append_right (a s pat : List Char)
    (h : containsChars s pat = true) : containsChars (a ++ s) pat = true := by
  induction a with
  | nil => simpa using h
  | cons c cs ih => simp [containsChars, ih]

theorem containsChars_of_startsWith (s p : List Char)
    (h : startsWithChars p s = true) : containsChars s p = true := by
  cases s with
  | nil =>
    cases p with
    | nil => rfl
    | cons c cs => simp [startsWithChars] at h
  | cons c cs =>
    simp [containsChars]
    exact Or.inl h

theorem containsChars_self_append (p t : List Char) :
    containsChars (p ++ t) p = true :=
  containsChars_of_startsWith _ _ (startsWithChars_append p t)

theorem strIncludes_append_middle (a p t : String) :
    strIncludes (a ++ (p ++ t)) p = true := by
  unfold strIncludes
  rw [String.data_append, String.data_append]
  exact containsChars_append_right _ _ _ (containsChars_self_append _ _)

theorem find?_some_first {α : Type _} (p : α → Bool) :
    ∀ (l : List α) (a : α), l.find? p = some a →
      p a = true ∧ ∃ l1 l2, l = l1 ++ a :: l2 ∧ ∀ b ∈ l1, p b = false := by
  intro l
  induction l with
  | nil => intro a h; simp [List.find?] at h
  | cons x xs ih =>
    intro a h
    by_cases hx : p x = true
    · rw [List.find?_cons_of_pos _ hx] at h
      obtain rfl : x = a := by injection h
      exact ⟨hx, [], xs, rfl, by simp⟩
    · rw [List.find?_cons_of_neg _ (by simpa using hx)] at h
      obtain ⟨hpa, l1, l2, heq, hall⟩ := ih a h
      refine ⟨hpa, x :: l1, l2, by rw [heq]; rfl, ?_⟩
      intro b hb
      rcases List.mem_cons.mp hb with rfl | hb1
      · simpa using hx
      · exact hall b hb1

theorem startsWithChars_refl (p : List Char) : startsWithChars p p = true := by
  have h := startsWithChars_append p []
  simpa using h

theorem startsWithChars_extend (p s t : List Char)
    (h : startsWithChars p s = true) : startsWithChars p (s ++ t) = true := by
  induction p generalizing s with
  | nil => rfl
  | cons c cs ih =>
    cases s with
    | nil => simp [startsWithChars] at h
    | cons d ds =>
      simp [startsWithChars] at h ⊢
      exact ⟨h.1, ih ds h.2⟩

theorem containsChars_nil_pat (s : List Char) : containsChars s [] = true := by
  cases s with
  | nil => rfl
  | cons c cs => simp [containsChars, startsWithChars]

theorem containsChars_append_left (s t pat : List Char)
    (h : containsChars s pat = true) : containsChars (s ++ t) pat = true := by
  induction s with
  | nil =>
    have hpat : pat = [] := by
      cases pat with
      | nil => rfl
      | cons c cs => simp [containsChars] at h
    subst hpat
    exact containsChars_nil_pat _
  | cons c cs ih =>
    simp [containsChars] at h ⊢
    rcases h with h | h
    · exact Or.inl (startsWithChars_extend _ _ _ h)
    · exact Or.inr (ih h)

theorem strIncludes_append_end (a p : String) : strIncludes (a ++ p) p = true := by
  unfold strIncludes
  rw [String.data_append]
  exact containsChars_append_right _ _ _
    (containsChars_of_startsWith _ _ (startsWithChars_refl _))

theorem strIncludes_append_left (s t pat : String)
    (h : strIncludes s pat = true) : strIncludes (s ++ t) pat = true := by
  unfold strIncludes at h ⊢
  rw [String.data_append]
  exact containsChars_append_left _ _ _ h


end StringLemmas

section PipelineLemmas

open OfflineDeps

theorem downloadRipgrep_ok {env : Env} {fs fs' : FS} {v : String}
    (h : downloadRipgrep env fs = .ok (fs', v)) :
    fs' = { fs with ripgrepDir := true } ∧ v = RIPGREP_VERSION := by
  simp only [downloadRipgrep] at h
  split at h
  · simp at h
  · split at h
    · simp at h
    · simp only [Except.ok.injEq, Prod.mk.injEq] at h
      exact ⟨h.1.symm, h.2.symm⟩

theorem downloadRipgrep_error {env : Env} {fs fs' : FS} {e : String}
    (h : downloadRipgrep env fs = .error (e, fs')) : fs' = fs := by
  simp only [downloadRipgrep] at h
  split at h
  · simp only [Except.error.injEq, Prod.mk.injEq] at h
    exact h.2.symm
  · split at h
    · simp only [Except.error.injEq, Prod.mk.injEq] at h
      exact h.2.symm
    · simp at h

theorem downloadClangd_ok {env : Env} {fs fs' : FS} {v : String}
    (h : downloadClangd env fs = .ok (fs', v)) :
    fs' = { fs with clangdDir := true } ∧
    ∃ release, env.clangdRelease = some release ∧ v = release.tag_name := by
  simp only [downloadClangd] at h
  split at h
  · simp at h
  · rename_i release hrel
    split at h
    · simp at h
    · split at h
      · simp at h
      · split at h
        · simp at h
        · simp only [Except.ok.injEq, Prod.mk.injEq] at h
          exact ⟨h.1.symm, release, hrel, h.2.symm⟩

theorem downloadClangd_error {env : Env} {fs fs' : FS} {e : String}
    (h : downloadClangd env fs = .error (e, fs')) : fs' = fs := by
  simp only [downloadClangd] at h
  split at h
  · simp only [Except.error.injEq, Prod.mk.injEq] at h
    exact h.2.symm
  · split at h
    · simp only [Except.error.injEq, Prod.mk.injEq] at h
      exact h.2.symm
    · split at h
      · simp only [Except.error.injEq, Prod.mk.injEq] at h
        exact h.2.symm
      · split at h
        · simp only [Except.error.injEq, Prod.mk.injEq] at h
          exact h.2.symm
        · simp at h

theorem downloadRustAnalyzer_ok {env : Env} {fs fs' : FS} {v : String}
    (h : downloadRustAnalyzer env fs = .ok (fs', v)) :
    fs' = { fs with rustAnalyzerBin := true } ∧
    ∃ release, env.rustAnalyzerRelease = some release ∧ v = release.tag_name := by
  simp only [downloadRustAnalyzer] at h
  split at h
  · simp at h
  · rename_i release hrel
    split at h
    · simp at h
    · split at h
      · simp at h
      · split at h
        · simp at h
        · simp only [Except.ok.injEq, Prod.mk.injEq] at h
          exact ⟨h.1.symm, release, hrel, h.2.symm⟩

theorem downloadRustAnalyzer_error {env : Env} {fs fs' : FS} {e : String}
    (h : downloadRustAnalyzer env fs = .error (e, fs')) : fs' = fs := by
  simp only [downloadRustAnalyzer] at h
  split at h
  · simp only [Except.error.injEq, Prod.mk.injEq] at h
    exact h.2.symm
  · split at h
    · simp only [Except.error.injEq, Prod.mk.injEq] at h
      exact h.2.symm
    · split at h
      · simp only [Except.error.injEq, Prod.mk.injEq] at h
        exact h.2.symm
      · split at h
        · simp only [Except.error.injEq, Prod.mk.injEq] at h
          exact h.2.symm
        · simp at h

theorem installNpmPackages_ok {env : Env} {fs fs' : FS} {v : List (String × String)}
    (h : installNpmPackages env fs = .ok (fs', v)) :
    fs' = { fs with nodeModules := true } ∧ v = env.installedVersions := by
  simp only [installNpmPackages] at h
  split at h
  · simp at h
  · simp only [Except.ok.injEq, Prod.mk.injEq] at h
    exact ⟨h.1.symm, h.2.symm⟩

theorem installNpmPackages_error {env : Env} {fs fs' : FS} {e : String}
    (h : installNpmPackages env fs = .error (e, fs')) : fs' = fs := by
  simp only [installNpmPackages] at h
  split at h
  · simp only [Except.error.injEq, Prod.mk.injEq] at h
    exact h.2.symm
  · simp at h

theorem main_ok_characterization {env : Env} {fs : FS}
    (h : OfflineDeps.main env = .ok fs) :
    ∃ crel rarel, env.clangdRelease = some crel ∧
      env.rustAnalyzerRelease = some rarel ∧
      fs = { ripgrepDir := true, clangdDir := true, rustAnalyzerBin := true
             nodeModules := true
             manifest := some (createManifest RIPGREP_VERSION crel.tag_name
               rarel.tag_name env.installedVersions env.now) } := by
  simp only [OfflineDeps.main] at h
  split at h
  · simp at h
  · rename_i fs1 rv h1
    split at h
    · simp at h
    · rename_i fs2 cv h2
      split at h
      · simp at h
      · rename_i fs3 rav h3
        split at h
        · simp at h
        · rename_i fs4 npm h4
          obtain ⟨hfs1, hrv⟩ := downloadRipgrep_ok h1
          obtain ⟨hfs2, crel, hcrel, hcv⟩ := downloadClangd_ok h2
          obtain ⟨hfs3, rarel, hrarel, hrav⟩ := downloadRustAnalyzer_ok h3
          obtain ⟨hfs4, hnpm⟩ := installNpmPackages_ok h4
          refine ⟨crel, rarel, hcrel, hrarel, ?_⟩
          simp only [Except.ok.injEq] at h
          subst hfs1 hfs2 hfs3 hfs4 hrv hcv hrav hnpm
          simp [← h, FS.empty]

theorem main_error_manifest {env : Env} {e : String} {fs : FS}
    (h : OfflineDeps.main env = .error (e, fs)) : fs.manifest = none := by
  simp only [OfflineDeps.main] at h
  split at h
  · rename_i e1 h1
    obtain rfl : e1 = (e, fs) := by simpa using h
    rw [downloadRipgrep_error h1]
    rfl
  · rename_i fs1 rv h1
    obtain ⟨hfs1, -⟩ := downloadRipgrep_ok h1
    split at h
    · rename_i e1 h2
      obtain rfl : e1 = (e, fs) := by simpa using h
      rw [downloadClangd_error h2, hfs1]
      rfl
    · rename_i fs2 cv h2
      obtain ⟨hfs2, -⟩ := downloadClangd_ok h2
      split at h
      · rename_i e1 h3
        obtain rfl : e1 = (e, fs) := by simpa using h
        rw [downloadRustAnalyzer_error h3, hfs2, hfs1]
        rfl
      · rename_i fs3 rav h3
        obtain ⟨hfs3, -⟩ := downloadRustAnalyzer_ok h3
        split at h
        · rename_i e1 h4
          obtain rfl : e1 = (e, fs) := by simpa using h
          rw [installNpmPackages_error h4, hfs3, hfs2, hfs1]
          rfl
        · simp at h

end PipelineLemmas

section ClaimC1C8

open OfflineDeps

/-- C1: Manifest write ordering. In the acquisition pipeline the manifest
is written only after the four dependency acquisitions (ripgrep, clangd,
rust-analyzer, npm packages) have all completed successfully: a successful
run ends with the manifest present and every component directory
materialized under the dependency root, and a run in which any acquisition
step throws ends with no manifest written. -/
theorem manifest_write_ordering (env : Env) :
    (∀ fs, OfflineDeps.main env = .ok fs →
      fs.manifest.isSome = true ∧ fs.ripgrepDir = true ∧ fs.clangdDir = true ∧
      fs.rustAnalyzerBin = true ∧ fs.nodeModules = true) ∧
    (∀ e fs, OfflineDeps.main env = .error (e, fs) → fs.manifest = none) := by
  constructor
  · intro fs h
    obtain ⟨crel, rarel, -, -, rfl⟩ := main_ok_characterization h
    exact ⟨rfl, rfl, rfl, rfl, rfl⟩
  · intro e fs h
    exact main_error_manifest h

/-- Witness for C1 at two concrete environments: a fully successful run
and a run whose npm-install step fails after the three binary downloads. -/
theorem manifest_write_ordering_witness :
    (fsAllOk.manifest.isSome = true ∧ fsAllOk.ripgrepDir = true ∧
     fsAllOk.clangdDir = true ∧ fsAllOk.rustAnalyzerBin = true ∧
     fsAllOk.nodeModules = true) ∧
    (FS.mk true true true false none).manifest = none :=
  ⟨(manifest_write_ordering envAllOk).1 fsAllOk (by rfl),
   (manifest_write_ordering envNpmFail).2 "Failed to install npm packages"
     (FS.mk true true true false none) (by rfl)⟩

/-- C8: Two-run determinism of pinned components. Two full acquisition
runs that differ only in the clock reading, with the same pinned versions
and the same resolver/installer results, produce manifests with equal
components mappings (ripgrep being the hardcoded "14.1.1" constant in
both) and equal version, platform and arch fields, so the two manifests
can differ only in the created timestamp field. -/
theorem manifest_determinism (env : Env) (t1 t2 : String)
    (fs1 fs2 : FS) (m1 m2 : Manifest)
    (h1 : OfflineDeps.main { env with now := t1 } = .ok fs1)
    (h2 : OfflineDeps.main { env with now := t2 } = .ok fs2)
    (hm1 : fs1.manifest = some m1) (hm2 : fs2.manifest = some m2) :
    m1.components = m2.components ∧ m1.version = m2.version ∧
    m1.platform = m2.platform ∧ m1.arch = m2.arch ∧
    m1.components.ripgrep = "14.1.1" ∧ m1.created = t1 ∧ m2.created = t2 := by
  obtain ⟨c1, r1, hc1, hr1, rfl⟩ := main_ok_characterization h1
  obtain ⟨c2, r2, hc2, hr2, rfl⟩ := main_ok_characterization h2
  have hcc : c1 = c2 := Option.some.inj (hc1.symm.trans hc2)
  have hrr : r1 = r2 := Option.some.inj (hr1.symm.trans hr2)
  subst hcc hrr
  obtain rfl : m1 = createManifest RIPGREP_VERSION c1.tag_name r1.tag_name
      ({ env with now := t1 } : Env).installedVersions t1 := (Option.some.inj hm1).symm
  obtain rfl : m2 = createManifest RIPGREP_VERSION c1.tag_name r1.tag_name
      ({ env with now := t2 } : Env).installedVersions t2 := (Option.some.inj hm2).symm
  exact ⟨rfl, rfl, rfl, rfl, rfl, rfl, rfl⟩

/-- Witness for C8: the environment `envAllOk` run at clock readings "A"
and "B" yields the manifests `mA` and `mB`. -/
theorem manifest_determinism_witness :
    mA.components = mB.components ∧ mA.version = mB.version ∧
    mA.platform = mB.platform ∧ mA.arch = mB.arch ∧
    mA.components.ripgrep = "14.1.1" ∧ mA.created = "A" ∧ mB.created = "B" :=
  manifest_determinism envAllOk "A" "B" fsA fsB mA mB (by rfl) (by rfl) rfl rfl

end ClaimC1C8

section ClaimC2

open OfflineDeps

/-- C2 (amended): Asset selection. For any list of release assets the
clangd selection by the substring-conjunction predicate (contains the
platform marker, contains the version tag, ends with the extension) fails
exactly when no asset matches, and otherwise returns the first matching
asset in listed order — also when more than one asset matches; the
rust-analyzer selection matches by exact filename equality, likewise
returning the first such asset and failing exactly when none exists. -/
theorem asset_selection (tag : String) (assets : List Asset) :
    (findClangdAsset tag assets = none ↔
      ∀ a ∈ assets, clangdAssetMatch tag a = false) ∧
    (∀ a, findClangdAsset tag assets = some a →
      clangdAssetMatch tag a = true ∧
      ∃ l1 l2, assets = l1 ++ a :: l2 ∧
        ∀ b ∈ l1, clangdAssetMatch tag b = false) ∧
    (∀ a, findRustAnalyzerAsset assets = some a →
      a.name = rustAnalyzerAssetName ∧
      ∃ l1 l2, assets = l1 ++ a :: l2 ∧
        ∀ b ∈ l1, (b.name == rustAnalyzerAssetName) = false) ∧
    (findRustAnalyzerAsset assets = none ↔
      ∀ a ∈ assets, (a.name == rustAnalyzerAssetName) = false) := by
  refine ⟨?_, ?_, ?_, ?_⟩
  · unfold findClangdAsset
    rw [List.find?_eq_none]
    constructor
    · intro h a ha
      have := h a ha
      simpa using this
    · intro h a ha
      simp [h a ha]
  · intro a h
    exact find?_some_first _ _ _ h
  · intro a h
    obtain ⟨hpa, l1, l2, heq, hall⟩ := find?_some_first _ _ _ h
    exact ⟨by simpa using hpa, l1, l2, heq, hall⟩
  · unfold findRustAnalyzerAsset
    rw [List.find?_eq_none]
    constructor
    · intro h a ha
      have := h a ha
      simpa using this
    · intro h a ha
      simp [h a ha]

/-- Witness for C2: on a one-element asset list holding a matching asset,
the selection returns it as the head of the decomposition. -/
theorem asset_selection_witness :
    clangdAssetMatch "19.1.2"
      { name := "clangd-linux-19.1.2.zip", browser_download_url := "u1" } = true ∧
    ∃ l1 l2,
      [({ name := "clangd-linux-19.1.2.zip", browser_download_url := "u1" } : Asset)]
        = l1 ++ ({ name := "clangd-linux-19.1.2.zip", browser_download_url := "u1" } : Asset) :: l2 ∧
      ∀ b ∈ l1, clangdAssetMatch "19.1.2" b = false :=
  (asset_selection "19.1.2"
    [{ name := "clangd-linux-19.1.2.zip", browser_download_url := "u1" }]).2.1
    { name := "clangd-linux-19.1.2.zip", browser_download_url := "u1" } (by rfl)

/-- C2 counterexample: with two assets both satisfying the substring
predicate the selection does not fail with an error; it returns the first
matching asset in listed order. -/
theorem asset_selection_counterexample :
    clangdAssetMatch "19.1.2"
      { name := "clangd-linux-19.1.2.zip", browser_download_url := "u1" } = true ∧
    clangdAssetMatch "19.1.2"
      { name := "clangd-linux-19.1.2-alt.zip", browser_download_url := "u2" } = true ∧
    findClangdAsset "19.1.2"
      [{ name := "clangd-linux-19.1.2.zip", browser_download_url := "u1" },
       { name := "clangd-linux-19.1.2-alt.zip", browser_download_url := "u2" }]
      = some { name := "clangd-linux-19.1.2.zip", browser_download_url := "u1" } :=
  ⟨by rfl, by rfl, by rfl⟩

end ClaimC2

section ClaimC3C6

open OfflineDeps

/-- C3 (amended): Extraction failure diagnostics. Both extractTarGz and
extractZip fail exactly when the extraction subprocess exits non-zero; in
that case the extractZip error carries the captured stderr of the
subprocess, while the extractTarGz error names only the archive path and
does not include the captured stderr. -/
theorem extraction_failure (archivePath destDir : String) (strip : Nat)
    (proc : ProcResult) :
    (extractTarGz archivePath destDir strip proc = .ok () ↔ proc.exitCode = 0) ∧
    (extractZip archivePath destDir proc = .ok () ↔ proc.exitCode = 0) ∧
    (proc.exitCode ≠ 0 →
      extractTarGz archivePath destDir strip proc
        = .error ("Failed to extract " ++ archivePath) ∧
      extractZip archivePath destDir proc
        = .error ("Failed to extract " ++ archivePath ++ ": " ++ proc.stderr) ∧
      strIncludes ("Failed to extract " ++ archivePath ++ ": " ++ proc.stderr)
        proc.stderr = true) := by
  refine ⟨?_, ?_, ?_⟩
  · by_cases hz : proc.exitCode = 0 <;> simp [extractTarGz, hz]
  · by_cases hz : proc.exitCode = 0 <;> simp [extractZip, hz]
  · intro hz
    exact ⟨by simp [extractTarGz, hz], by simp [extractZip, hz],
      strIncludes_append_end _ _⟩

/-- Witness for C3 at a concrete failing subprocess outcome. -/
theorem extraction_failure_witness :
    extractTarGz "a.tar.gz" "dist/offline-deps/ripgrep" 1 failProc
      = .error ("Failed to extract " ++ "a.tar.gz") ∧
    extractZip "a.tar.gz" "dist/offline-deps/lsp" failProc
      = .error ("Failed to extract " ++ "a.tar.gz" ++ ": " ++ failProc.stderr) ∧
    strIncludes ("Failed to extract " ++ "a.tar.gz" ++ ": " ++ failProc.stderr)
      failProc.stderr = true :=
  (extraction_failure "a.tar.gz" "dist/offline-deps/lsp" 1 failProc).2.2 (by decide)

/-- C3 counterexample: a failing tar extraction whose raised error message
does not contain the captured stderr of the subprocess, refuting that both
extraction helpers carry the diagnostic output. -/
theorem extraction_stderr_counterexample :
    extractTarGz "a.tar.gz" "dist/offline-deps/ripgrep" 1
      { exitCode := 1, stderr := "tar: Unexpected EOF" }
      = .error "Failed to extract a.tar.gz" ∧
    strIncludes "Failed to extract a.tar.gz" "tar: Unexpected EOF" = false :=
  ⟨by rfl, by rfl⟩

/-- C6: Download failure. downloadFile succeeds exactly when the HTTP
response is ok: on a successful response it writes the response body to
the destination, and on an unsuccessful response it throws an error whose
message carries the HTTP status, writing nothing. -/
theorem download_failure (url dest : String) (r : HttpResponse) :
    ((∃ w, downloadFile url dest r = .ok w) ↔ r.ok = true) ∧
    (r.ok = true →
      downloadFile url dest r = .ok { dest := dest, content := r.body }) ∧
    (r.ok = false →
      downloadFile url dest r
        = .error ("Failed to download " ++ url ++ ": " ++ toString r.status
            ++ " " ++ r.statusText) ∧
      strIncludes ("Failed to download " ++ url ++ ": " ++ toString r.status
            ++ " " ++ r.statusText) (toString r.status) = true) := by
  refine ⟨?_, ?_, ?_⟩
  · constructor
    · rintro ⟨w, hw⟩
      by_cases hok : r.ok
      · exact hok
      · simp [downloadFile, hok] at hw
    · intro hok
      exact ⟨{ dest := dest, content := r.body }, by simp [downloadFile, hok]⟩
  · intro hok
    simp [downloadFile, hok]
  · intro hok
    refine ⟨by simp [downloadFile, hok], ?_⟩
    have h1 : strIncludes (("Failed to download " ++ url ++ ": ")
        ++ toString r.status) (toString r.status) = true :=
      strIncludes_append_end _ _
    have h2 := strIncludes_append_left _ " " _ h1
    exact strIncludes_append_left _ r.statusText _ h2

/-- Witness for C6 at a concrete unsuccessful response. -/
theorem download_failure_witness :
    downloadFile "https://example.com/x" "dist/offline-deps/x" errResponse
      = .error ("Failed to download " ++ "https://example.com/x" ++ ": "
          ++ toString errResponse.status ++ " " ++ errResponse.statusText) ∧
    strIncludes ("Failed to download " ++ "https://example.com/x" ++ ": "
          ++ toString errResponse.status ++ " " ++ errResponse.statusText)
      (toString errResponse.status) = true :=
  (download_failure "https://example.com/x" "dist/offline-deps/x" errResponse).2.2 rfl

end ClaimC3C6

section ClaimC4

open OfflineDeps OfflinePkg

theorem getKey_cons_eq (k1 : String) (v1 : JsValue) (rest : List (String × JsValue))
    (k : String) (h : (k1 == k) = true) :
    getKey ((k1, v1) :: rest) k = some v1 := by
  simp [getKey, List.find?_cons, h]

theorem getKey_cons_ne (k1 : String) (v1 : JsValue) (rest : List (String × JsValue))
    (k : String) (h : (k1 == k) = false) :
    getKey ((k1, v1) :: rest) k = getKey rest k := by
  simp [getKey, List.find?_cons, h]

theorem getKey_setKey_same (o : List (String × JsValue)) (k : String) (v : JsValue) :
    getKey (setKey o k v) k = some v := by
  induction o with
  | nil => exact getKey_cons_eq k v [] k (by simp)
  | cons p rest ih =>
    obtain ⟨k1, v1⟩ := p
    by_cases hk : (k1 == k) = true
    · rw [show setKey ((k1, v1) :: rest) k v = (k, v) :: rest by simp [setKey, hk]]
      exact getKey_cons_eq k v rest k (by simp)
    · have hkf : (k1 == k) = false := by simpa using hk
      rw [show setKey ((k1, v1) :: rest) k v = (k1, v1) :: setKey rest k v by
        simp [setKey, hkf]]
      rw [getKey_cons_ne k1 v1 _ k hkf]
      exact ih

theorem getKey_setKey_other (o : List (String × JsValue)) (k k2 : String)
    (v : JsValue) (h : k2 ≠ k) :
    getKey (setKey o k v) k2 = getKey o k2 := by
  have hbeq : (k == k2) = false := by simpa using (Ne.symm h)
  induction o with
  | nil =>
    rw [show setKey [] k v = [(k, v)] from rfl]
    rw [getKey_cons_ne k v [] k2 hbeq]
  | cons p rest ih =>
    obtain ⟨k1, v1⟩ := p
    by_cases hk : (k1 == k) = true
    · have hk1 : k1 = k := eq_of_beq hk
      have hk1b : (k1 == k2) = false := by rw [hk1]; exact hbeq
      rw [show setKey ((k1, v1) :: rest) k v = (k, v) :: rest by simp [setKey, hk]]
      rw [getKey_cons_ne k v rest k2 hbeq, getKey_cons_ne k1 v1 rest k2 hk1b]
    · have hkf : (k1 == k) = false := by simpa using hk
      rw [show setKey ((k1, v1) :: rest) k v = (k1, v1) :: setKey rest k v by
        simp [setKey, hkf]]
      by_cases hk12 : (k1 == k2) = true
      · rw [getKey_cons_eq k1 v1 _ k2 hk12, getKey_cons_eq k1 v1 rest k2 hk12]
      · have hk12f : (k1 == k2) = false := by simpa using hk12
        rw [getKey_cons_ne k1 v1 _ k2 hk12f, getKey_cons_ne k1 v1 rest k2 hk12f]
        exact ih

theorem getKey_setIfTruthy_other (o : List (String × JsValue)) (k k2 : String)
    (x : Option String) (h : k2 ≠ k) :
    getKey (setIfTruthy o k x) k2 = getKey o k2 := by
  cases x with
  | none => rfl
  | some s =>
    by_cases hs : (s == "") = true
    · rw [show setIfTruthy o k (some s) = o by simp [setIfTruthy, hs]]
    · rw [show setIfTruthy o k (some s) = setKey o k (.str s) by
        simp [setIfTruthy, hs]]
      exact getKey_setKey_other o k k2 _ h

theorem getKey_setIfTruthy_truthy (o : List (String × JsValue)) (k s : String)
    (hs : s ≠ "") :
    getKey (setIfTruthy o k (some s)) k = some (.str s) := by
  have hsb : (s == "") = false := by simpa using hs
  rw [show setIfTruthy o k (some s) = setKey o k (.str s) by simp [setIfTruthy, hsb]]
  exact getKey_setKey_same o k _

theorem getKey_setIfTruthy_falsy (o : List (String × JsValue)) (k : String)
    (x : Option String) (hx : x = none ∨ x = some "") :
    setIfTruthy o k x = o := by
  rcases hx with rfl | rfl
  · rfl
  · simp [setIfTruthy]

theorem getKey_manifestToJs_bundleVersion (m : Manifest) :
    getKey (manifestToJs m) "bundleVersion" = none := by rfl

theorem getKey_manifestToJs_commitSha (m : Manifest) :
    getKey (manifestToJs m) "commitSha" = none := by rfl

/-- C4 (amended): Manifest round trip with injection. The bundle assembler
reads back the object the manifest generator wrote, and with neither
environment value truthy rewrites it unchanged; injection adds a
bundleVersion field exactly when the BUNDLE_VERSION value is supplied and
non-empty, and a commitSha field exactly when the BUNDLE_COMMIT_SHA value
is supplied and non-empty (a value supplied as the empty string is falsy
and injects nothing), and the injection alters no other field. -/
theorem manifest_injection (m : Manifest) (bv cs : Option String) :
    (injectBundleInfo (manifestToJs m) none none = manifestToJs m) ∧
    (∀ k, k ≠ "bundleVersion" → k ≠ "commitSha" →
      getKey (injectBundleInfo (manifestToJs m) bv cs) k
        = getKey (manifestToJs m) k) ∧
    (∀ s, bv = some s → s ≠ "" →
      getKey (injectBundleInfo (manifestToJs m) bv cs) "bundleVersion"
        = some (.str s)) ∧
    (∀ s, cs = some s → s ≠ "" →
      getKey (injectBundleInfo (manifestToJs m) bv cs) "commitSha"
        = some (.str s)) ∧
    ((bv = none ∨ bv = some "") →
      getKey (injectBundleInfo (manifestToJs m) bv cs) "bundleVersion" = none) ∧
    ((cs = none ∨ cs = some "") →
      getKey (injectBundleInfo (manifestToJs m) bv cs) "commitSha" = none) := by
  refine ⟨rfl, ?_, ?_, ?_, ?_, ?_⟩
  · intro k hk1 hk2
    unfold injectBundleInfo
    rw [getKey_setIfTruthy_other _ _ _ _ hk2, getKey_setIfTruthy_other _ _ _ _ hk1]
  · intro s rfl_bv hs
    subst rfl_bv
    unfold injectBundleInfo
    rw [getKey_setIfTruthy_other _ _ _ _ (by decide : "bundleVersion" ≠ "commitSha")]
    exact getKey_setIfTruthy_truthy _ _ _ hs
  · intro s rfl_cs hs
    subst rfl_cs
    unfold injectBundleInfo
    exact getKey_setIfTruthy_truthy _ _ _ hs
  · intro hbv
    unfold injectBundleInfo
    rw [getKey_setIfTruthy_other _ _ _ _ (by decide : "bundleVersion" ≠ "commitSha")]
    rw [getKey_setIfTruthy_falsy _ _ _ hbv]
    exact getKey_manifestToJs_bundleVersion m
  · intro hcs
    unfold injectBundleInfo
    rw [getKey_setIfTruthy_falsy _ _ _ hcs]
    rw [getKey_setIfTruthy_other _ _ _ _ (by decide : "commitSha" ≠ "bundleVersion")]
    exact getKey_manifestToJs_commitSha m

/-- Witness for C4: frame preservation at the platform key and injection
of a truthy bundle version, at a concrete manifest. -/
theorem manifest_injection_witness :
    getKey (injectBundleInfo (manifestToJs mA) (some "1.2.3") (some "deadbeef"))
      "platform" = getKey (manifestToJs mA) "platform" ∧
    getKey (injectBundleInfo (manifestToJs mA) (some "1.2.3") (some "deadbeef"))
      "bundleVersion" = some (.str "1.2.3") :=
  ⟨(manifest_injection mA (some "1.2.3") (some "deadbeef")).2.1 "platform"
      (by decide) (by decide),
   (manifest_injection mA (some "1.2.3") (some "deadbeef")).2.2.1 "1.2.3"
      rfl (by decide)⟩

/-- C4 counterexample: the BUNDLE_VERSION environment value supplied as the
empty string is falsy in JavaScript, so no bundleVersion field is added,
refuting the claimed "if and only if the environment value is supplied". -/
theorem manifest_injection_counterexample :
    (some "" : Option String).isSome = true ∧
    getKey (injectBundleInfo (manifestToJs mA) (some "") none) "bundleVersion"
      = none :=
  ⟨rfl, by rfl⟩

end ClaimC4

section ClaimC5C7

open OfflinePkg

/-- C5: Launcher script contents. The generated launcher script contains a
line setting the offline-mode flag (OPENCODE_OFFLINE_MODE=true), a line
setting the dependency-path variable to the bundle's deps directory, and
lines setting the three feature-disable booleans to true, each occurring
before the final line that execs the host binary at bin/opencode
forwarding all arguments. -/
theorem wrapper_script_contents :
    ((splitLines wrapperScript).contains
      "export OPENCODE_OFFLINE_MODE=true" = true ∧
     (splitLines wrapperScript).contains
      "export OPENCODE_OFFLINE_DEPS_PATH=\"$SCRIPT_DIR/deps\"" = true ∧
     (splitLines wrapperScript).contains
      "export OPENCODE_DISABLE_AUTOUPDATE=true" = true ∧
     (splitLines wrapperScript).contains
      "export OPENCODE_DISABLE_LSP_DOWNLOAD=true" = true ∧
     (splitLines wrapperScript).contains
      "export OPENCODE_DISABLE_MODELS_FETCH=true" = true ∧
     (splitLines wrapperScript).contains
      "exec \"$SCRIPT_DIR/bin/opencode\" \"$@\"" = true) ∧
    ((splitLines wrapperScript).indexOf "export OPENCODE_OFFLINE_MODE=true"
      < (splitLines wrapperScript).indexOf "exec \"$SCRIPT_DIR/bin/opencode\" \"$@\"" ∧
     (splitLines wrapperScript).indexOf "export OPENCODE_OFFLINE_DEPS_PATH=\"$SCRIPT_DIR/deps\""
      < (splitLines wrapperScript).indexOf "exec \"$SCRIPT_DIR/bin/opencode\" \"$@\"" ∧
     (splitLines wrapperScript).indexOf "export OPENCODE_DISABLE_AUTOUPDATE=true"
      < (splitLines wrapperScript).indexOf "exec \"$SCRIPT_DIR/bin/opencode\" \"$@\"" ∧
     (splitLines wrapperScript).indexOf "export OPENCODE_DISABLE_LSP_DOWNLOAD=true"
      < (splitLines wrapperScript).indexOf "exec \"$SCRIPT_DIR/bin/opencode\" \"$@\"" ∧
     (splitLines wrapperScript).indexOf "export OPENCODE_DISABLE_MODELS_FETCH=true"
      < (splitLines wrapperScript).indexOf "exec \"$SCRIPT_DIR/bin/opencode\" \"$@\"") := by
  exact ⟨⟨by rfl, by rfl, by rfl, by rfl, by rfl, by rfl⟩,
    ⟨by decide, by decide, by decide, by decide, by decide⟩⟩

/-- C7: Packaging precondition. When the dependency root does not exist
the packaging entry point prints the two error messages and exits with
code 1, and no build, bundle, wrapper, readme or archive step runs and no
bundle manifest is written. -/
theorem packaging_precondition (env : PkgEnv) (h : env.depsExist = false) :
    (mainPackage env).exitCode = 1 ∧
    (mainPackage env).steps = [] ∧
    (mainPackage env).bundleManifest = none ∧
    (mainPackage env).errorOutput =
      ["Error: Dependencies not found at " ++ OfflineDeps.DEPS_DIR,
       "Please run 'bun run script/download-offline-deps.ts' first"] := by
  refine ⟨?_, ?_, ?_, ?_⟩ <;> simp [mainPackage, h]

/-- Witness for C7 at a concrete environment lacking the dependency root. -/
theorem packaging_precondition_witness :
    (mainPackage pkgEnvNoDeps).exitCode = 1 ∧
    (mainPackage pkgEnvNoDeps).steps = [] ∧
    (mainPackage pkgEnvNoDeps).bundleManifest = none ∧
    (mainPackage pkgEnvNoDeps).errorOutput =
      ["Error: Dependencies not found at " ++ OfflineDeps.DEPS_DIR,
       "Please run 'bun run script/download-offline-deps.ts' first"] :=
  packaging_precondition pkgEnvNoDeps rfl

end ClaimC5C7

section ClaimC9

/-- Sanity checks of the `path.posix.join` model against Node's documented
behavior on representative inputs. -/
theorem pathJoin_model_examples :
    Offline.pathJoinList ["a", "b"] = "a/b" ∧
    Offline.pathJoinList ["/opt/deps", "sub", "rg"] = "/opt/deps/sub/rg" ∧
    Offline.pathJoinList ["deps/", "x"] = "deps/x" ∧
    Offline.pathJoinList ["a", ".."] = "." ∧
    Offline.pathJoinList ["..", "x"] = "../x" ∧
    Offline.pathJoinList ["/", ".."] = "/" ∧
    Offline.pathJoinList ["a", "b/"] = "a/b/" ∧
    Offline.pathJoinList ["", ""] = "." ∧
    Offline.pathJoinList ["deps", "ripgrep", "../../x"] = "x" :=
  ⟨rfl, rfl, rfl, rfl, rfl, rfl, rfl, rfl, rfl⟩

theorem resolveShape_none_iff (f : Offline.Flags) (g : String → String) :
    ((match Offline.getDepsPath f with
      | none => none
      | some depsPath =>
        if !Offline.isEnabled f || depsPath == "" then none
        else some (g depsPath)) = none ↔
      (Offline.isEnabled f = false ∨ Offline.getDepsPath f = none ∨
        Offline.getDepsPath f = some "")) := by
  cases hdp : Offline.getDepsPath f with
  | none => simp
  | some dp =>
    by_cases hmode : Offline.isEnabled f
    · by_cases hdpe : dp = ""
      · subst hdpe
        simp [hmode]
      · have hbeq : (dp == "") = false := by simpa using hdpe
        simp [hmode, hbeq, hdpe]
    · have hmf : Offline.isEnabled f = false := by simpa using hmode
      simp [hmf]

theorem resolveShape_some (f : Offline.Flags) (g : String → String) (dp : String)
    (hdp : Offline.getDepsPath f = some dp) (hmode : Offline.isEnabled f = true)
    (hne : dp ≠ "") :
    (match Offline.getDepsPath f with
      | none => none
      | some depsPath =>
        if !Offline.isEnabled f || depsPath == "" then none
        else some (g depsPath)) = some (g dp) := by
  rw [hdp]
  have hbeq : (dp == "") = false := by simpa using hne
  simp [hmode, hbeq]

/-- C9 (amended): Offline path resolver totality. Each of resolveBinary,
resolveNpmPackage and resolveLspBinary returns undefined exactly when
offline mode is disabled or the dependency-path variable is unset or set
to the empty string (JavaScript falsiness); otherwise each returns the
Node path.join of the dependency path with its fixed relative layout.
(A defined result need not lie under the dependency path: dot-dot
segments in the inputs are normalized away by path.join and can escape
it, as the counterexample shows.) -/
theorem resolver_totality (f : Offline.Flags)
    (name subpath pkg lspName binaryName : String) :
    (Offline.resolveBinary f name subpath = none ↔
      (Offline.isEnabled f = false ∨ Offline.getDepsPath f = none ∨
        Offline.getDepsPath f = some "")) ∧
    (Offline.resolveNpmPackage f pkg = none ↔
      (Offline.isEnabled f = false ∨ Offline.getDepsPath f = none ∨
        Offline.getDepsPath f = some "")) ∧
    (Offline.resolveLspBinary f lspName binaryName = none ↔
      (Offline.isEnabled f = false ∨ Offline.getDepsPath f = none ∨
        Offline.getDepsPath f = some "")) ∧
    (∀ dp, Offline.getDepsPath f = some dp → Offline.isEnabled f = true →
      dp ≠ "" →
      Offline.resolveBinary f name subpath
        = some (Offline.pathJoin3 dp subpath name) ∧
      Offline.resolveNpmPackage f pkg
        = some (Offline.pathJoin3 dp "node_modules" pkg) ∧
      Offline.resolveLspBinary f lspName binaryName
        = some (Offline.pathJoin5 dp "lsp" lspName "bin" binaryName)) := by
  refine ⟨?_, ?_, ?_, ?_⟩
  · exact resolveShape_none_iff f (fun dp => Offline.pathJoin3 dp subpath name)
  · exact resolveShape_none_iff f (fun dp => Offline.pathJoin3 dp "node_modules" pkg)
  · exact resolveShape_none_iff f
      (fun dp => Offline.pathJoin5 dp "lsp" lspName "bin" binaryName)
  · intro dp hdp hmode hne
    exact ⟨resolveShape_some f _ dp hdp hmode hne,
      resolveShape_some f _ dp hdp hmode hne,
      resolveShape_some f _ dp hdp hmode hne⟩

/-- Witness for C9: with offline mode on and deps path "deps", the three
resolvers return the documented joined paths. -/
theorem resolver_totality_witness :
    Offline.resolveBinary Offline.flagsW "rg" "ripgrep"
        = some (Offline.pathJoin3 "deps" "ripgrep" "rg") ∧
    Offline.resolveNpmPackage Offline.flagsW "pyright"
        = some (Offline.pathJoin3 "deps" "node_modules" "pyright") ∧
    Offline.resolveLspBinary Offline.flagsW "clangd" "clangd"
        = some (Offline.pathJoin5 "deps" "lsp" "clangd" "bin" "clangd") :=
  (resolver_totality Offline.flagsW "rg" "ripgrep" "pyright" "clangd" "clangd").2.2.2
    "deps" rfl rfl (by decide)

/-- C9 counterexample, refuting the claim as stated at two concrete
inputs. First, with offline mode enabled and the dependency-path variable
set to the empty string, the variable is set yet the resolver returns
undefined, against the claimed "undefined if and only if offline mode is
disabled or the dependency-path variable is unset". Second, for the input
name "../../x" the resolver returns the defined path "x" — path.join
normalizes the dot-dot segments — which does not lie under the dependency
path "deps", against the claimed "a defined result always lies under the
dependency path". -/
theorem resolver_totality_counterexample :
    (Offline.isEnabled
        { OPENCODE_OFFLINE_MODE := true, OPENCODE_OFFLINE_DEPS_PATH := some "" }
        = true ∧
      (Offline.getDepsPath
        { OPENCODE_OFFLINE_MODE := true,
          OPENCODE_OFFLINE_DEPS_PATH := some "" }).isSome = true ∧
      Offline.resolveBinary
        { OPENCODE_OFFLINE_MODE := true, OPENCODE_OFFLINE_DEPS_PATH := some "" }
        "rg" "ripgrep" = none) ∧
    (Offline.resolveBinary Offline.flagsW "../../x" "ripgrep" = some "x" ∧
      startsWithChars ("deps" : String).data ("x" : String).data = false) :=
  ⟨⟨rfl, rfl, by rfl⟩, ⟨by rfl, by rfl⟩⟩

end ClaimC9

section ClaimC10

open RequestCapture

theorem headerPart_auth_none (k v : String) (h : authHeaderKey k = true) :
    headerPart false (k, v) = none := by
  unfold headerPart
  unfold authHeaderKey at h
  simp [h]

theorem headerPart_contentLength_none (ia : Bool) (k v : String)
    (h : (strToLower k == "content-length") = true) :
    headerPart ia (k, v) = none := by
  unfold headerPart
  have hk : strToLower k = "content-length" := eq_of_beq h
  rw [hk]
  have h1 : (("content-length" : String) == "authorization") = false := by rfl
  have h2 : (("content-length" : String) == "x-api-key") = false := by rfl
  have h3 : (("content-length" : String) == "content-length") = true := by rfl
  simp [h1, h2, h3]

theorem filterMap_headerPart_congr (h1 h2 : List (String × String))
    (hh : List.Forall₂
      (fun a b => a.1 = b.1 ∧ (a.2 = b.2 ∨ authHeaderKey a.1 = true)) h1 h2) :
    h1.filterMap (headerPart false) = h2.filterMap (headerPart false) := by
  induction hh with
  | nil => rfl
  | cons hab htail ih =>
    rename_i a b l1 l2
    obtain ⟨ka, va⟩ := a
    obtain ⟨kb, vb⟩ := b
    obtain ⟨hk, hv⟩ := hab
    dsimp only at hk hv
    rcases hv with hv | hauth
    · subst hk
      subst hv
      rw [List.filterMap_cons, List.filterMap_cons, ih]
    · subst hk
      rw [List.filterMap_cons, List.filterMap_cons,
        headerPart_auth_none ka va hauth, headerPart_auth_none ka vb hauth, ih]

theorem filterMap_filter_contentLength (ia : Bool)
    (l : List (String × String)) :
    (l.filter (fun kv => !(strToLower kv.1 == "content-length"))).filterMap
        (headerPart ia)
      = l.filterMap (headerPart ia) := by
  induction l with
  | nil => rfl
  | cons kv rest ih =>
    by_cases hcl : (strToLower kv.1 == "content-length") = true
    · rw [List.filter_cons]
      obtain ⟨k, v⟩ := kv
      simp only [hcl, Bool.not_true, Bool.false_eq_true, if_false]
      rw [List.filterMap_cons, headerPart_contentLength_none ia k v hcl, ih]
    · rw [List.filter_cons]
      have hclf : (!(strToLower kv.1 == "content-length")) = true := by
        simpa using hcl
      simp only [hclf, if_true]
      rw [List.filterMap_cons, List.filterMap_cons, ih]

/-- C10: Curl rendering noninterference. With includeAuth false, the curl
rendering of a captured request does not depend on the values of
authorization or x-api-key headers (case-insensitive): two captured
requests equal except for those header values render identically; and for
every option setting, dropping all content-length headers from a request
leaves the rendering unchanged, so content-length is never included. -/
theorem curl_render_noninterference (r1 r2 r : CapturedRequest)
    (includeAuth : Bool)
    (hurl : r1.url = r2.url) (hm : r1.method = r2.method)
    (hb : r1.body = r2.body)
    (hh : List.Forall₂
      (fun a b => a.1 = b.1 ∧ (a.2 = b.2 ∨ authHeaderKey a.1 = true))
      r1.headers r2.headers) :
    toCurl r1 false = toCurl r2 false ∧
    toCurl { r with headers := stripContentLength r.headers } includeAuth
      = toCurl r includeAuth := by
  constructor
  · unfold toCurl
    rw [hurl, hm, hb, filterMap_headerPart_congr _ _ hh]
  · obtain ⟨sid, ts, url, method, headers, body⟩ := r
    unfold toCurl stripContentLength
    dsimp only
    rw [filterMap_filter_contentLength]

/-- Witness for C10: two concrete captured requests differing only in the
authorization header value render to the same string, and filtering
content-length headers out of the first leaves its rendering unchanged. -/
theorem curl_render_noninterference_witness :
    toCurl reqA false = toCurl reqB false ∧
    toCurl { reqA with headers := stripContentLength reqA.headers } true
      = toCurl reqA true :=
  curl_render_noninterference reqA reqB reqA true rfl rfl rfl
    (List.Forall₂.cons ⟨rfl, Or.inr (by rfl)⟩
      (List.Forall₂.cons ⟨rfl, Or.inl rfl⟩ List.Forall₂.nil))

end ClaimC10
